import Mathlib

/-!
Verification development for the AI-Agent repository
(`src/agent/agent.py` and `src/agent/tools.py`).

The Python code is shallowly embedded: pure string manipulation is
translated to Lean functions over `String`/`List Char`; every external
effect (network, subprocess, filesystem, the LLM completion service) is
an explicit oracle parameter; Python exceptions that can cross a
function boundary are modelled with `Except`.  Python's `str.lower` /
`str.upper` are modelled on the ASCII range (all data relevant to the
claims is ASCII or unaffected Cyrillic literal text).
-/

set_option autoImplicit false
set_option linter.unusedVariables false

namespace Agent

/-! ## Python string primitives (kernel-reduction friendly) -/

/-- Python `pat in s` (substring containment) on char lists. -/
def listIsInfix (pat : List Char) : List Char → Bool
  | [] => pat.isEmpty
  | c :: rest => pat.isPrefixOf (c :: rest) || listIsInfix pat rest

/-- Python `pat in s` on strings. -/
def strContains (s pat : String) : Bool :=
  listIsInfix pat.toList s.toList

/-- Python `s.startswith(pre)`. -/
def strStarts (s pre : String) : Bool :=
  pre.toList.isPrefixOf s.toList

/-- Python `s.strip()` on char lists (ASCII whitespace). -/
def pyStripChars (l : List Char) : List Char :=
  ((l.dropWhile Char.isWhitespace).reverse.dropWhile Char.isWhitespace).reverse

/-- Python `s.strip()`. -/
def pyTrim (s : String) : String :=
  String.mk (pyStripChars s.toList)

/-- Python `s.lower()` (ASCII). -/
def pyLower (s : String) : String :=
  String.mk (s.toList.map Char.toLower)

/-- Python `s.upper()` (ASCII). -/
def pyUpper (s : String) : String :=
  String.mk (s.toList.map Char.toUpper)

/-- Python `sep.join(l)`. -/
def joinSep (sep : String) : List String → String
  | [] => ""
  | [s] => s
  | s :: rest => s ++ sep ++ joinSep sep rest

/-- Fuel-indexed core of Python `s.replace(pat, rep)` (left-to-right,
non-overlapping).  The fuel is an embedding artifact to keep the
recursion structural; `s.length` fuel is always sufficient for a
non-empty pattern, since every step consumes at least one character. -/
def listReplaceFuel (rep pat : List Char) : Nat → List Char → List Char
  | 0, s => s
  | _ + 1, [] => []
  | fuel + 1, c :: rest =>
    if !pat.isEmpty && pat.isPrefixOf (c :: rest) then
      rep ++ listReplaceFuel rep pat fuel ((c :: rest).drop pat.length)
    else
      c :: listReplaceFuel rep pat fuel rest

/-- Python `s.replace(pat, rep)` for non-empty `pat`. -/
def pyReplace (s pat rep : String) : String :=
  String.mk (listReplaceFuel rep.toList pat.toList s.toList.length s.toList)

/-- Python `s.split(sep)` for a single-character separator.
Always returns a non-empty list, like Python. -/
def pySplitChar (sep : Char) : List Char → List (List Char)
  | [] => [[]]
  | c :: rest =>
    if c = sep then
      [] :: pySplitChar sep rest
    else
      match pySplitChar sep rest with
      | [] => [[c]]
      | h :: t => (c :: h) :: t

/-- Python `s.split(sep, 1)` for a single-character separator:
the part before the first separator, and (if the separator occurs)
the remainder after it. -/
def splitOnce (sep : Char) : List Char → List Char × Option (List Char)
  | [] => ([], none)
  | c :: rest =>
    if c = sep then
      ([], some rest)
    else
      match splitOnce sep rest with
      | (a, b) => (c :: a, b)

/-! ## Raw tool-argument values (`RawToolArguments` of the spec)

LangChain hands each tool one positional argument: either a scalar or a
list whose elements are scalars or metadata dictionaries.  A dictionary
value is carried together with its Python `str(...)` rendering. -/

/-- An element of a raw argument list: a string scalar or a metadata
dictionary (`render` is its Python `str` form). -/
inductive PyVal where
  | str (s : String)
  | dict (render : String)
  deriving DecidableEq

/-- Python `str(v)`. -/
def PyVal.render : PyVal → String
  | .str s => s
  | .dict r => r

/-- Python `isinstance(v, dict)`. -/
def PyVal.isDict : PyVal → Bool
  | .str _ => false
  | .dict _ => true

/-- The raw argument passed to a tool function. -/
inductive RawInput where
  | scalar (v : PyVal)
  | list (vs : List PyVal)
  deriving DecidableEq

/-! ## `_normalize_input` (tools.py lines 25-47) -/

/-- Embedding of `_normalize_input`: lists have metadata dictionaries
filtered out; zero real entries fall back to the single element when
the list has exactly one element, else all elements are space-joined;
one real entry is returned; several real entries are space-joined;
scalars are rendered with `str`. -/
def normalizeInput : RawInput → String
  | .scalar v => v.render
  | .list vs =>
    match vs.filter (fun v => !v.isDict) with
    | [] =>
      match vs with
      | [v] => v.render
      | _ => joinSep " " (vs.map PyVal.render)
    | [v] => v.render
    | v :: w :: ws => joinSep " " ((v :: w :: ws).map PyVal.render)

/-- Modelled from the words of spec §4.1 (the claimed case analysis for
`normalize`), to be compared with `normalizeInput` above: scalar gives
its string form; metadata entries are discarded; zero real entries give
the single element if exactly one element exists overall, else the
space-join of all elements; one real entry is returned; several real
entries are space-joined; the entirely empty sequence gives `""`. -/
def normalizeSpecModel : RawInput → String
  | .scalar v => v.render
  | .list [] => ""
  | .list (a :: tl) =>
    if ((a :: tl).filter (fun v => !v.isDict)).length = 0 then
      if (a :: tl).length = 1 then
        ((a :: tl).headD (.str "")).render
      else
        joinSep " " ((a :: tl).map PyVal.render)
    else if ((a :: tl).filter (fun v => !v.isDict)).length = 1 then
      (((a :: tl).filter (fun v => !v.isDict)).headD (.str "")).render
    else
      joinSep " " (((a :: tl).filter (fun v => !v.isDict)).map PyVal.render)

/-! ## `execute_terminal` denylist (tools.py lines 395-428) -/

/-- The `dangerous_commands` denylist of `execute_terminal`. -/
def dangerousCommands : List String :=
  ["rm", "del", "format", "mkfs", "dd", "shutdown", "reboot"]

/-- Outcome of `subprocess.run` as seen by `execute_terminal`:
a wall-clock timeout, some other raised exception, or completion with
an exit code, stdout and stderr. -/
inductive SubOracle where
  | timedOut
  | raisedExc (e : String)
  | done (code : Int) (out : String) (err : String)
  deriving DecidableEq

/-- Embedding of `execute_terminal` after input normalization.  The
first component records whether a subprocess was spawned at all; the
second is the returned string. -/
def executeTerminalRun (command : String) (o : SubOracle) : Bool × String :=
  match dangerousCommands.find? (fun d => strStarts (pyTrim (pyLower command)) d) with
  | some d =>
    (false, "Ошибка: Команда \x27" ++ d ++ "\x27 запрещена из соображений безопасности.")
  | none =>
    (true,
      match o with
      | .timedOut => "Ошибка: Команда превысила лимит времени (30 секунд)."
      | .raisedExc e => "Ошибка выполнения команды: " ++ e
      | .done code out err =>
        "Exit code: " ++ toString code ++ "\nOutput:\n" ++ (if out = "" then err else out))

/-! ## `get_currency_rate` input parsing (tools.py lines 632-641) -/

/-- Embedding of the currency-pair parsing of `get_currency_rate`:
`'to'`, `'TO'` and `' '` are each replaced by `'/'`, the result is
split on `'/'`, and the first two fields (or `USD` plus the only
field) give base and target.  The `[]` arm is unreachable because a
split always yields at least one field. -/
def parseCurrencyPair (cp : String) : String × String :=
  match (pySplitChar '/'
      (pyReplace (pyReplace (pyReplace cp "to" "/") "TO" "/") " " "/").toList).map
      (fun l => String.mk l) with
  | p0 :: p1 :: _ => (pyUpper (pyTrim p0), pyUpper (pyTrim p1))
  | [p0] => ("USD", pyUpper (pyTrim p0))
  | [] => ("USD", "")

/-! ## `get_crypto_price` input normalization (tools.py lines 569-580) -/

/-- Python exceptions that can escape a tool function in this model. -/
inductive PyExn where
  | indexError
  | unboundLocal
  deriving DecidableEq

/-- Embedding of the list handling of `get_crypto_price` (it does NOT
use `_normalize_input`): one element gives `str` of it, two elements
are comma-joined, three or more keep only the first element, and the
empty list raises `IndexError` (`value[0]` on `[]`, outside the `try`). -/
def cryptoNormalize : RawInput → Except PyExn String
  | .scalar v => .ok v.render
  | .list [v] => .ok v.render
  | .list [a, b] => .ok (a.render ++ "," ++ b.render)
  | .list [] => .error .indexError
  | .list (v :: _ :: _ :: _) => .ok v.render

/-! ## Claim theorems for C3, C4, C8, C10 -/

/-- Claim C4: `_normalize_input` implements exactly the case analysis
stated in the spec (metadata discarded; zero real entries fall back to
the single element or the space-join of all elements; one real entry is
returned; several are space-joined; the empty sequence gives `""`).
The function is a total Lean function of its argument, hence
deterministic, side-effect-free and non-raising for every input shape. -/
theorem c4_normalize_matches_spec : ∀ r : RawInput, normalizeInput r = normalizeSpecModel r := by
  intro r
  cases r with
  | scalar v => rfl
  | list vs =>
    cases vs with
    | nil => rfl
    | cons a tl =>
      rcases hf : (a :: tl).filter (fun v => !v.isDict) with _ | ⟨v, _ | ⟨w, ws⟩⟩
      · cases tl with
        | nil => simp [normalizeInput, normalizeSpecModel, hf]
        | cons b tl2 => simp [normalizeInput, normalizeSpecModel, hf]
      · simp [normalizeInput, normalizeSpecModel, hf]
      · simp [normalizeInput, normalizeSpecModel, hf]

/-- Claim C3: whenever the lowercased, trimmed command starts with a
denylisted token (`rm`, `del`, `format`, `mkfs`, `dd`, `shutdown`,
`reboot`), `execute_terminal` returns the refusal string for the first
matching token and no subprocess is spawned (first component `false`),
so the command is never run and the filesystem is untouched. -/
theorem c3_terminal_denylist_refusal :
    ∀ (command : String) (o : SubOracle),
      dangerousCommands.any (fun d => strStarts (pyTrim (pyLower command)) d) = true →
      (executeTerminalRun command o).1 = false ∧
      ∃ d ∈ dangerousCommands,
        (executeTerminalRun command o).2 =
          "Ошибка: Команда \x27" ++ d ++ "\x27 запрещена из соображений безопасности." := by
  intro command o h
  rw [List.any_eq_true] at h
  have hs : (dangerousCommands.find? (fun d => strStarts (pyTrim (pyLower command)) d)).isSome := by
    rw [List.find?_isSome]
    simpa using h
  obtain ⟨d, hd⟩ := Option.isSome_iff_exists.mp hs
  refine ⟨?_, d, List.mem_of_find?_eq_some hd, ?_⟩ <;>
    simp [executeTerminalRun, hd]

/-- Witness for C3 at the spec's own scenario `"rm -rf /"`. -/
theorem c3_terminal_denylist_refusal_witness :
    (executeTerminalRun "rm -rf /" (SubOracle.done 0 "" "")).1 = false ∧
    ∃ d ∈ dangerousCommands,
      (executeTerminalRun "rm -rf /" (SubOracle.done 0 "" "")).2 =
        "Ошибка: Команда \x27" ++ d ++ "\x27 запрещена из соображений безопасности." :=
  c3_terminal_denylist_refusal "rm -rf /" (SubOracle.done 0 "" "") (by decide)

/-- Counterexample for C8: the two pair spellings do NOT agree.
`"USD to EUR"` parses to base `USD` and target `""` (the `'to'` and
space replacements produce `"USD///EUR"`, whose second `'/'`-field is
empty), while `"USD/EUR"` parses to `("USD", "EUR")`. -/
theorem c8_usd_to_eur_counterexample :
    parseCurrencyPair "USD to EUR" = ("USD", "") ∧
    parseCurrencyPair "USD/EUR" = ("USD", "EUR") ∧
    parseCurrencyPair "USD to EUR" ≠ parseCurrencyPair "USD/EUR" := by
  refine ⟨by decide, by decide, by decide⟩

/-- A currency-code string the replace/split pipeline of
`get_currency_rate` leaves intact: no whitespace, no `'/'`, and neither
`"to"` nor `"TO"` as a substring (codes containing them, such as the
real ISO code TOP, are corrupted by the `'to'`/`'TO'` replacements). -/
def plainCode (s : String) : Bool :=
  s.toList.all (fun c => !c.isWhitespace && c != '/') &&
  !listIsInfix ['t', 'o'] s.toList && !listIsInfix ['T', 'O'] s.toList

/-- Helper: `(String.mk l).toList = l`. -/
theorem mk_toList (l : List Char) : (String.mk l).toList = l := rfl

/-- Helper: `String.mk s.toList = s`. -/
theorem toList_mk (s : String) : String.mk s.toList = s := rfl

/-- Helper: `toList` distributes over append. -/
theorem toList_append (s t : String) : (s ++ t).toList = s.toList ++ t.toList :=
  String.data_append s t

/-- Helper: replacing a pattern that does not occur changes nothing
(for any fuel). -/
theorem listReplaceFuel_no_occ (rep pat : List Char) :
    ∀ (fuel : Nat) (s : List Char), listIsInfix pat s = false →
      listReplaceFuel rep pat fuel s = s := by
  intro fuel
  induction fuel with
  | zero => intro s h; rfl
  | succ f ih =>
    intro s h
    cases s with
    | nil => rfl
    | cons c rest =>
      simp only [listIsInfix, Bool.or_eq_false_iff] at h
      simp [listReplaceFuel, h.1, ih rest h.2]

/-- Helper: a single character absent from a list is not an infix. -/
theorem listIsInfix_single_false (x : Char) :
    ∀ s : List Char, (∀ c ∈ s, c ≠ x) → listIsInfix [x] s = false := by
  intro s
  induction s with
  | nil => intro h; rfl
  | cons c rest ih =>
    intro h
    have hc : ¬(x = c) := fun he => (h c (List.mem_cons_self c rest)) he.symm
    simp [listIsInfix, List.isPrefixOf, hc,
      ih (fun d hd => h d (List.mem_cons_of_mem c hd))]

/-- Helper: a two-character pattern avoiding the middle character is
not an infix of `a ++ m :: b` when it is an infix of neither side. -/
theorem listIsInfix_two_middle_false (x y m : Char) (hmx : ¬(x = m)) (hmy : ¬(y = m)) :
    ∀ a b : List Char, listIsInfix [x, y] a = false → listIsInfix [x, y] b = false →
      listIsInfix [x, y] (a ++ m :: b) = false := by
  intro a
  induction a with
  | nil =>
    intro b ha hb
    simp [listIsInfix, List.isPrefixOf, hmx, hb]
  | cons c a' ih =>
    intro b ha hb
    simp only [listIsInfix, Bool.or_eq_false_iff] at ha
    have h2 := ih b ha.2 hb
    simp only [List.cons_append, listIsInfix, Bool.or_eq_false_iff]
    refine ⟨?_, h2⟩
    cases a' with
    | nil => simp [List.isPrefixOf, hmy]
    | cons d a'' =>
      have h1 := ha.1
      simp only [List.isPrefixOf] at h1 ⊢
      simpa using h1

/-- Helper: splitting a list without the separator yields one field. -/
theorem pySplitChar_no_sep (sep : Char) :
    ∀ s : List Char, (∀ c ∈ s, c ≠ sep) → pySplitChar sep s = [s] := by
  intro s
  induction s with
  | nil => intro h; rfl
  | cons c rest ih =>
    intro h
    have hc : ¬(c = sep) := h c (List.mem_cons_self c rest)
    simp [pySplitChar, hc, ih (fun d hd => h d (List.mem_cons_of_mem c hd))]

/-- Helper: splitting past a separator-free head yields it as the first
field. -/
theorem pySplitChar_sep_append (sep : Char) :
    ∀ a b : List Char, (∀ c ∈ a, c ≠ sep) →
      pySplitChar sep (a ++ sep :: b) = a :: pySplitChar sep b := by
  intro a
  induction a with
  | nil => intro b h; simp [pySplitChar]
  | cons c a' ih =>
    intro b h
    have hc : ¬(c = sep) := h c (List.mem_cons_self c a')
    simp [pySplitChar, hc, ih b (fun d hd => h d (List.mem_cons_of_mem c hd))]

/-- Helper: `dropWhile` with an everywhere-false predicate is the
identity. -/
theorem dropWhile_all_false {α : Type} (p : α → Bool) :
    ∀ l : List α, (∀ c ∈ l, p c = false) → l.dropWhile p = l := by
  intro l
  cases l with
  | nil => intro h; rfl
  | cons c rest => intro h; simp [List.dropWhile_cons, h c (List.mem_cons_self c rest)]

/-- Helper: stripping a whitespace-free string is the identity. -/
theorem pyTrim_eq_self (s : String) (h : ∀ c ∈ s.toList, c.isWhitespace = false) :
    pyTrim s = s := by
  have h1 : s.toList.dropWhile Char.isWhitespace = s.toList :=
    dropWhile_all_false _ _ h
  have h2 : s.toList.reverse.dropWhile Char.isWhitespace = s.toList.reverse :=
    dropWhile_all_false _ _ (fun c hc => h c (List.mem_reverse.mp hc))
  show String.mk (((s.toList.dropWhile Char.isWhitespace).reverse.dropWhile
    Char.isWhitespace).reverse) = s
  rw [h1, h2, List.reverse_reverse]
  exact toList_mk s

/-- Helper: replacing the one occurrence of a two-character pattern
`x :: y :: _` (with `x ≠ y`) sitting after a pattern-free head. -/
theorem listReplaceFuel_two_middle (rep : List Char) (x y : Char) (hxy : ¬(y = x)) :
    ∀ (a : List Char) (fuel : Nat) (b : List Char),
      listIsInfix [x, y] a = false → a.length < fuel →
      listReplaceFuel rep [x, y] fuel (a ++ x :: y :: b) =
        a ++ rep ++ listReplaceFuel rep [x, y] (fuel - (a.length + 1)) b := by
  intro a
  induction a with
  | nil =>
    intro fuel b ha hf
    cases fuel with
    | zero => exact absurd hf (Nat.not_lt_zero _)
    | succ f => simp [listReplaceFuel, List.isPrefixOf]
  | cons c a' ih =>
    intro fuel b ha hf
    cases fuel with
    | zero => exact absurd hf (Nat.not_lt_zero _)
    | succ f =>
      simp only [listIsInfix, Bool.or_eq_false_iff] at ha
      have hnop : List.isPrefixOf [x, y] (c :: (a' ++ x :: y :: b)) = false := by
        cases a' with
        | nil => simp [List.isPrefixOf, hxy]
        | cons d a'' =>
          have h1 := ha.1
          simp only [List.isPrefixOf] at h1 ⊢
          simpa using h1
      have hstep : listReplaceFuel rep [x, y] (f + 1) (c :: (a' ++ x :: y :: b)) =
          c :: listReplaceFuel rep [x, y] f (a' ++ x :: y :: b) := by
        simp [listReplaceFuel, hnop]
      have hf' : a'.length < f := by
        simp only [List.length_cons] at hf
        omega
      have harith : f + 1 - ((c :: a').length + 1) = f - (a'.length + 1) := by
        simp only [List.length_cons]
        omega
      rw [List.cons_append, hstep, ih f b ha.2 hf', harith]
      simp

/-- Helper: replacing the first occurrence of a single character
sitting after an occurrence-free head. -/
theorem listReplaceFuel_single_middle (rep : List Char) (m : Char) :
    ∀ (a : List Char) (fuel : Nat) (b : List Char),
      (∀ c ∈ a, c ≠ m) → a.length < fuel →
      listReplaceFuel rep [m] fuel (a ++ m :: b) =
        a ++ rep ++ listReplaceFuel rep [m] (fuel - (a.length + 1)) b := by
  intro a
  induction a with
  | nil =>
    intro fuel b ha hf
    cases fuel with
    | zero => exact absurd hf (Nat.not_lt_zero _)
    | succ f => simp [listReplaceFuel, List.isPrefixOf]
  | cons c a' ih =>
    intro fuel b ha hf
    cases fuel with
    | zero => exact absurd hf (Nat.not_lt_zero _)
    | succ f =>
      have hc : ¬(m = c) := fun he => (ha c (List.mem_cons_self c a')) he.symm
      have hstep : listReplaceFuel rep [m] (f + 1) (c :: (a' ++ m :: b)) =
          c :: listReplaceFuel rep [m] f (a' ++ m :: b) := by
        simp [listReplaceFuel, List.isPrefixOf, hc]
      have hf' : a'.length < f := by
        simp only [List.length_cons] at hf
        omega
      have harith : f + 1 - ((c :: a').length + 1) = f - (a'.length + 1) := by
        simp only [List.length_cons]
        omega
      rw [List.cons_append, hstep, ih f b (fun d hd => ha d (List.mem_cons_of_mem c hd)) hf',
        harith]
      simp

/-- Helper: what `plainCode` says about the individual characters. -/
theorem plainCode_chars (s : String) (h : plainCode s = true) :
    ∀ c ∈ s.toList, c.isWhitespace = false ∧ c ≠ '/' ∧ c ≠ ' ' := by
  intro c hc
  simp only [plainCode, Bool.and_eq_true, List.all_eq_true] at h
  have hcc := h.1.1 c hc
  simp only [Bool.and_eq_true, Bool.not_eq_true', bne_iff_ne] at hcc
  refine ⟨hcc.1, hcc.2, fun he => ?_⟩
  rw [he] at hcc
  exact absurd hcc.1 (by decide)

/-- Helper: what `plainCode` says about the `to`/`TO` substrings. -/
theorem plainCode_to (s : String) (h : plainCode s = true) :
    listIsInfix ['t', 'o'] s.toList = false ∧ listIsInfix ['T', 'O'] s.toList = false := by
  simp only [plainCode, Bool.and_eq_true, Bool.not_eq_true'] at h
  exact ⟨h.1.2, h.2⟩

/-- Helper: the `"A/B"` spelling for intact codes. -/
theorem parse_pair_slash (A B : String) (hA : plainCode A = true) (hB : plainCode B = true) :
    parseCurrencyPair (A ++ "/" ++ B) = (pyUpper A, pyUpper B) := by
  have hAc := plainCode_chars A hA
  have hBc := plainCode_chars B hB
  have hdata : (A ++ "/" ++ B).toList = A.toList ++ '/' :: B.toList := by
    rw [toList_append, toList_append]
    show (A.toList ++ ['/']) ++ B.toList = A.toList ++ '/' :: B.toList
    rw [List.append_assoc]
    rfl
  have h1 : listIsInfix ['t', 'o'] (A.toList ++ '/' :: B.toList) = false :=
    listIsInfix_two_middle_false 't' 'o' '/' (by decide) (by decide) _ _
      (plainCode_to A hA).1 (plainCode_to B hB).1
  have h2 : listIsInfix ['T', 'O'] (A.toList ++ '/' :: B.toList) = false :=
    listIsInfix_two_middle_false 'T' 'O' '/' (by decide) (by decide) _ _
      (plainCode_to A hA).2 (plainCode_to B hB).2
  have h3 : listIsInfix [' '] (A.toList ++ '/' :: B.toList) = false := by
    apply listIsInfix_single_false
    intro c hcmem
    simp only [List.mem_append, List.mem_cons] at hcmem
    rcases hcmem with hc | hc | hc
    · exact (hAc c hc).2.2
    · rw [hc]; decide
    · exact (hBc c hc).2.2
  have e1 : pyReplace (A ++ "/" ++ B) "to" "/" = (A ++ "/" ++ B) := by
    show String.mk (listReplaceFuel ['/'] ['t', 'o']
      (A ++ "/" ++ B).toList.length (A ++ "/" ++ B).toList) = A ++ "/" ++ B
    rw [hdata, listReplaceFuel_no_occ _ _ _ _ h1, ← hdata]
    exact toList_mk _
  have e2 : pyReplace (A ++ "/" ++ B) "TO" "/" = (A ++ "/" ++ B) := by
    show String.mk (listReplaceFuel ['/'] ['T', 'O']
      (A ++ "/" ++ B).toList.length (A ++ "/" ++ B).toList) = A ++ "/" ++ B
    rw [hdata, listReplaceFuel_no_occ _ _ _ _ h2, ← hdata]
    exact toList_mk _
  have e3 : pyReplace (A ++ "/" ++ B) " " "/" = (A ++ "/" ++ B) := by
    show String.mk (listReplaceFuel ['/'] [' ']
      (A ++ "/" ++ B).toList.length (A ++ "/" ++ B).toList) = A ++ "/" ++ B
    rw [hdata, listReplaceFuel_no_occ _ _ _ _ h3, ← hdata]
    exact toList_mk _
  have hparts : (pySplitChar '/'
      (pyReplace (pyReplace (pyReplace (A ++ "/" ++ B) "to" "/") "TO" "/") " " "/").toList).map
      (fun l => String.mk l) = [A, B] := by
    rw [e1, e2, e3, hdata,
      pySplitChar_sep_append '/' A.toList B.toList (fun c hc => (hAc c hc).2.1),
      pySplitChar_no_sep '/' B.toList (fun c hc => (hBc c hc).2.1)]
    rfl
  refine Eq.trans (congrArg (fun parts : List String =>
    match parts with
    | p0 :: p1 :: _ => (pyUpper (pyTrim p0), pyUpper (pyTrim p1))
    | [p0] => ("USD", pyUpper (pyTrim p0))
    | [] => ("USD", "")) hparts) ?_
  show (pyUpper (pyTrim A), pyUpper (pyTrim B)) = (pyUpper A, pyUpper B)
  rw [pyTrim_eq_self A (fun c hc => (hAc c hc).1), pyTrim_eq_self B (fun c hc => (hBc c hc).1)]

/-- Helper: the `"A B"` spelling for intact codes. -/
theorem parse_pair_space (A B : String) (hA : plainCode A = true) (hB : plainCode B = true) :
    parseCurrencyPair (A ++ " " ++ B) = (pyUpper A, pyUpper B) := by
  have hAc := plainCode_chars A hA
  have hBc := plainCode_chars B hB
  have hdata : (A ++ " " ++ B).toList = A.toList ++ ' ' :: B.toList := by
    rw [toList_append, toList_append]
    show (A.toList ++ [' ']) ++ B.toList = A.toList ++ ' ' :: B.toList
    rw [List.append_assoc]
    rfl
  have h1 : listIsInfix ['t', 'o'] (A.toList ++ ' ' :: B.toList) = false :=
    listIsInfix_two_middle_false 't' 'o' ' ' (by decide) (by decide) _ _
      (plainCode_to A hA).1 (plainCode_to B hB).1
  have h2 : listIsInfix ['T', 'O'] (A.toList ++ ' ' :: B.toList) = false :=
    listIsInfix_two_middle_false 'T' 'O' ' ' (by decide) (by decide) _ _
      (plainCode_to A hA).2 (plainCode_to B hB).2
  have e1 : pyReplace (A ++ " " ++ B) "to" "/" = (A ++ " " ++ B) := by
    show String.mk (listReplaceFuel ['/'] ['t', 'o']
      (A ++ " " ++ B).toList.length (A ++ " " ++ B).toList) = A ++ " " ++ B
    rw [hdata, listReplaceFuel_no_occ _ _ _ _ h1, ← hdata]
    exact toList_mk _
  have e2 : pyReplace (A ++ " " ++ B) "TO" "/" = (A ++ " " ++ B) := by
    show String.mk (listReplaceFuel ['/'] ['T', 'O']
      (A ++ " " ++ B).toList.length (A ++ " " ++ B).toList) = A ++ " " ++ B
    rw [hdata, listReplaceFuel_no_occ _ _ _ _ h2, ← hdata]
    exact toList_mk _
  have e3 : pyReplace (A ++ " " ++ B) " " "/" = String.mk (A.toList ++ '/' :: B.toList) := by
    show String.mk (listReplaceFuel ['/'] [' ']
      (A ++ " " ++ B).toList.length (A ++ " " ++ B).toList) =
      String.mk (A.toList ++ '/' :: B.toList)
    rw [hdata, listReplaceFuel_single_middle ['/'] ' ' A.toList _ B.toList
        (fun c hc => (hAc c hc).2.2)
        (by simp only [List.length_append, List.length_cons]; omega),
      listReplaceFuel_no_occ _ _ _ _
        (listIsInfix_single_false ' ' B.toList (fun c hc => (hBc c hc).2.2)),
      List.append_assoc]
    rfl
  have hparts : (pySplitChar '/'
      (pyReplace (pyReplace (pyReplace (A ++ " " ++ B) "to" "/") "TO" "/") " " "/").toList).map
      (fun l => String.mk l) = [A, B] := by
    rw [e1, e2, e3]
    show (pySplitChar '/' (A.toList ++ '/' :: B.toList)).map (fun l => String.mk l) = [A, B]
    rw [pySplitChar_sep_append '/' A.toList B.toList (fun c hc => (hAc c hc).2.1),
      pySplitChar_no_sep '/' B.toList (fun c hc => (hBc c hc).2.1)]
    rfl
  refine Eq.trans (congrArg (fun parts : List String =>
    match parts with
    | p0 :: p1 :: _ => (pyUpper (pyTrim p0), pyUpper (pyTrim p1))
    | [p0] => ("USD", pyUpper (pyTrim p0))
    | [] => ("USD", "")) hparts) ?_
  show (pyUpper (pyTrim A), pyUpper (pyTrim B)) = (pyUpper A, pyUpper B)
  rw [pyTrim_eq_self A (fun c hc => (hAc c hc).1), pyTrim_eq_self B (fun c hc => (hBc c hc).1)]

/-- Helper: the `"A to B"` spelling for intact codes: the replaced
string is `A///B`, whose second field is empty. -/
theorem parse_pair_to (A B : String) (hA : plainCode A = true) (hB : plainCode B = true) :
    parseCurrencyPair (A ++ " to " ++ B) = (pyUpper A, "") := by
  have hAc := plainCode_chars A hA
  have hBc := plainCode_chars B hB
  have hdata : (A ++ " to " ++ B).toList = A.toList ++ ' ' :: 't' :: 'o' :: ' ' :: B.toList := by
    rw [toList_append, toList_append]
    show (A.toList ++ [' ', 't', 'o', ' ']) ++ B.toList =
      A.toList ++ ' ' :: 't' :: 'o' :: ' ' :: B.toList
    rw [List.append_assoc]
    rfl
  have hAsp : listIsInfix ['t', 'o'] (A.toList ++ [' ']) = false :=
    listIsInfix_two_middle_false 't' 'o' ' ' (by decide) (by decide) A.toList []
      (plainCode_to A hA).1 rfl
  have hBsp : listIsInfix ['t', 'o'] (' ' :: B.toList) = false :=
    listIsInfix_two_middle_false 't' 'o' ' ' (by decide) (by decide) [] B.toList rfl
      (plainCode_to B hB).1
  have e1 : pyReplace (A ++ " to " ++ B) "to" "/" =
      String.mk (A.toList ++ ' ' :: '/' :: ' ' :: B.toList) := by
    show String.mk (listReplaceFuel ['/'] ['t', 'o']
      (A ++ " to " ++ B).toList.length (A ++ " to " ++ B).toList) =
      String.mk (A.toList ++ ' ' :: '/' :: ' ' :: B.toList)
    rw [hdata,
      show A.toList ++ ' ' :: 't' :: 'o' :: ' ' :: B.toList =
        (A.toList ++ [' ']) ++ 't' :: 'o' :: (' ' :: B.toList) from by simp,
      listReplaceFuel_two_middle ['/'] 't' 'o' (by decide) (A.toList ++ [' ']) _
        (' ' :: B.toList) hAsp
        (by simp only [List.length_append, List.length_cons]; omega),
      listReplaceFuel_no_occ _ _ _ _ hBsp]
    simp
  have h2 : listIsInfix ['T', 'O'] (A.toList ++ ' ' :: '/' :: ' ' :: B.toList) = false := by
    apply listIsInfix_two_middle_false 'T' 'O' ' ' (by decide) (by decide) A.toList
      ('/' :: ' ' :: B.toList) (plainCode_to A hA).2
    apply listIsInfix_two_middle_false 'T' 'O' '/' (by decide) (by decide) []
      (' ' :: B.toList) rfl
    exact listIsInfix_two_middle_false 'T' 'O' ' ' (by decide) (by decide) [] B.toList rfl
      (plainCode_to B hB).2
  have e2 : pyReplace (String.mk (A.toList ++ ' ' :: '/' :: ' ' :: B.toList)) "TO" "/" =
      String.mk (A.toList ++ ' ' :: '/' :: ' ' :: B.toList) := by
    show String.mk (listReplaceFuel ['/'] ['T', 'O']
      (A.toList ++ ' ' :: '/' :: ' ' :: B.toList).length
      (A.toList ++ ' ' :: '/' :: ' ' :: B.toList)) =
      String.mk (A.toList ++ ' ' :: '/' :: ' ' :: B.toList)
    rw [listReplaceFuel_no_occ _ _ _ _ h2]
  have e3 : pyReplace (String.mk (A.toList ++ ' ' :: '/' :: ' ' :: B.toList)) " " "/" =
      String.mk (A.toList ++ '/' :: '/' :: '/' :: B.toList) := by
    show String.mk (listReplaceFuel ['/'] [' ']
      (A.toList ++ ' ' :: '/' :: ' ' :: B.toList).length
      (A.toList ++ ' ' :: '/' :: ' ' :: B.toList)) =
      String.mk (A.toList ++ '/' :: '/' :: '/' :: B.toList)
    rw [listReplaceFuel_single_middle ['/'] ' ' A.toList _ ('/' :: ' ' :: B.toList)
        (fun c hc => (hAc c hc).2.2)
        (by simp only [List.length_append, List.length_cons]; omega),
      show ('/' :: ' ' :: B.toList) = ['/'] ++ ' ' :: B.toList from rfl,
      listReplaceFuel_single_middle ['/'] ' ' ['/'] _ B.toList (by decide)
        (by simp only [List.length_append, List.length_cons, List.length_nil]; omega),
      listReplaceFuel_no_occ _ _ _ _
        (listIsInfix_single_false ' ' B.toList (fun c hc => (hBc c hc).2.2))]
    simp
  have hsp : pySplitChar '/' ('/' :: '/' :: B.toList) = [[], [], B.toList] := by
    show pySplitChar '/' ([] ++ '/' :: ('/' :: B.toList)) = [[], [], B.toList]
    rw [pySplitChar_sep_append '/' [] ('/' :: B.toList) (by intro c hc; cases hc)]
    show [] :: pySplitChar '/' ([] ++ '/' :: B.toList) = [[], [], B.toList]
    rw [pySplitChar_sep_append '/' [] B.toList (by intro c hc; cases hc),
      pySplitChar_no_sep '/' B.toList (fun c hc => (hBc c hc).2.1)]
  have hparts : (pySplitChar '/'
      (pyReplace (pyReplace (pyReplace (A ++ " to " ++ B) "to" "/") "TO" "/") " " "/").toList).map
      (fun l => String.mk l) = [A, "", "", B] := by
    rw [e1, e2, e3]
    show (pySplitChar '/' (A.toList ++ '/' :: ('/' :: '/' :: B.toList))).map
      (fun l => String.mk l) = [A, "", "", B]
    rw [pySplitChar_sep_append '/' A.toList ('/' :: '/' :: B.toList)
      (fun c hc => (hAc c hc).2.1), hsp]
    rfl
  refine Eq.trans (congrArg (fun parts : List String =>
    match parts with
    | p0 :: p1 :: _ => (pyUpper (pyTrim p0), pyUpper (pyTrim p1))
    | [p0] => ("USD", pyUpper (pyTrim p0))
    | [] => ("USD", "")) hparts) ?_
  show (pyUpper (pyTrim A), pyUpper (pyTrim "")) = (pyUpper A, "")
  rw [pyTrim_eq_self A (fun c hc => (hAc c hc).1)]
  rfl

/-- Helper: a single intact code defaults the base to `USD`. -/
theorem parse_single_code (B : String) (hB : plainCode B = true) :
    parseCurrencyPair B = ("USD", pyUpper B) := by
  have hBc := plainCode_chars B hB
  have h3 : listIsInfix [' '] B.toList = false :=
    listIsInfix_single_false ' ' B.toList (fun c hc => (hBc c hc).2.2)
  have e1 : pyReplace B "to" "/" = B := by
    show String.mk (listReplaceFuel ['/'] ['t', 'o'] B.toList.length B.toList) = B
    rw [listReplaceFuel_no_occ _ _ _ _ (plainCode_to B hB).1]
    exact toList_mk B
  have e2 : pyReplace B "TO" "/" = B := by
    show String.mk (listReplaceFuel ['/'] ['T', 'O'] B.toList.length B.toList) = B
    rw [listReplaceFuel_no_occ _ _ _ _ (plainCode_to B hB).2]
    exact toList_mk B
  have e3 : pyReplace B " " "/" = B := by
    show String.mk (listReplaceFuel ['/'] [' '] B.toList.length B.toList) = B
    rw [listReplaceFuel_no_occ _ _ _ _ h3]
    exact toList_mk B
  have hparts : (pySplitChar '/'
      (pyReplace (pyReplace (pyReplace B "to" "/") "TO" "/") " " "/").toList).map
      (fun l => String.mk l) = [B] := by
    rw [e1, e2, e3, pySplitChar_no_sep '/' B.toList (fun c hc => (hBc c hc).2.1)]
    rfl
  refine Eq.trans (congrArg (fun parts : List String =>
    match parts with
    | p0 :: p1 :: _ => (pyUpper (pyTrim p0), pyUpper (pyTrim p1))
    | [p0] => ("USD", pyUpper (pyTrim p0))
    | [] => ("USD", "")) hparts) ?_
  show ("USD", pyUpper (pyTrim B)) = ("USD", pyUpper B)
  rw [pyTrim_eq_self B (fun c hc => (hBc c hc).1)]

/-- Claim C8 (amended): for all currency codes `A`, `B` that the
replace/split pipeline leaves intact (no whitespace, no `'/'`, and not
containing `"to"` or `"TO"` as a substring), the spellings `"A/B"` and
`"A B"` both yield base `A` and target `B` (uppercased) and a single
currency `B` yields base `USD` and target `B`; but the `"A to B"`
spelling yields base `A` and an EMPTY target, because replacing `'to'`
and each surrounding space with `'/'` leaves consecutive delimiters and
the empty second field is taken as the target; and codes containing
`"TO"`, such as the real ISO code TOP, are corrupted by the
replacements (`"TOP/USD"` and plain `"TOP"` both parse to `("", "P")`). -/
theorem c8_currency_parse_amended :
    (∀ A B : String, plainCode A = true → plainCode B = true →
      parseCurrencyPair (A ++ "/" ++ B) = (pyUpper A, pyUpper B) ∧
      parseCurrencyPair (A ++ " " ++ B) = (pyUpper A, pyUpper B) ∧
      parseCurrencyPair (A ++ " to " ++ B) = (pyUpper A, "")) ∧
    (∀ B : String, plainCode B = true → parseCurrencyPair B = ("USD", pyUpper B)) ∧
    parseCurrencyPair "TOP/USD" = ("", "P") ∧
    parseCurrencyPair "TOP" = ("", "P") :=
  ⟨fun A B hA hB =>
    ⟨parse_pair_slash A B hA hB, parse_pair_space A B hA hB, parse_pair_to A B hA hB⟩,
   fun B hB => parse_single_code B hB, by decide, by decide⟩

/-- Witness for C8 (amended) at the concrete codes USD and EUR. -/
theorem c8_currency_parse_amended_witness :
    parseCurrencyPair ("USD" ++ "/" ++ "EUR") = (pyUpper "USD", pyUpper "EUR") ∧
    parseCurrencyPair ("USD" ++ " to " ++ "EUR") = (pyUpper "USD", "") ∧
    parseCurrencyPair "EUR" = ("USD", pyUpper "EUR") :=
  ⟨(c8_currency_parse_amended.1 "USD" "EUR" (by decide) (by decide)).1,
   (c8_currency_parse_amended.1 "USD" "EUR" (by decide) (by decide)).2.2,
   c8_currency_parse_amended.2.1 "EUR" (by decide)⟩

/-- Claim C10: `get_crypto_price` normalizes a list argument with its
own rules, deviating from `_normalize_input`: one element becomes that
element, exactly two elements are joined with a comma, and three or
more elements keep only the first (no space-join).  The last two
conjuncts exhibit the deviation from the general normalizer on a
concrete three-element list. -/
theorem c10_crypto_list_normalization :
    (∀ a : PyVal, cryptoNormalize (.list [a]) = .ok a.render) ∧
    (∀ a b : PyVal, cryptoNormalize (.list [a, b]) = .ok (a.render ++ "," ++ b.render)) ∧
    (∀ (a b c : PyVal) (rest : List PyVal),
      cryptoNormalize (.list (a :: b :: c :: rest)) = .ok a.render) ∧
    normalizeInput (.list [.str "btc", .str "eth", .str "sol"]) = "btc eth sol" ∧
    cryptoNormalize (.list [.str "btc", .str "eth", .str "sol"]) = .ok "btc" := by
  exact ⟨fun a => rfl, fun a b => rfl, fun a b c rest => rfl, by decide, rfl⟩

/-! ## Conversation-memory persistence (agent.py lines 163-220)

`_save_memory` serialises the message list to JSON as
`{"messages": [{"type": "human"|"ai", "content": ...}, ...], "summary": ...}`;
`_load_memory` reads that file back, appending each well-typed entry to a
fresh `ConversationBufferMemory`.  The JSON encode/decode pair itself is
the standard library and is assumed faithful; the file content is
modelled structurally: `corrupt` stands for any content on which
`json.load` raises or that has no usable `messages` structure. -/

/-- A conversation message held in memory. -/
inductive Msg where
  | human (content : String)
  | ai (content : String)
  deriving DecidableEq

/-- One element of the persisted `messages` list: a JSON object whose
`type` and `content` keys may each be missing, or a non-object value
(on which Python's `msg['type']` raises `TypeError`). -/
inductive Entry where
  | entry (type : Option String) (content : Option String)
  | notDict
  deriving DecidableEq

/-- The persisted file's parsed content: `corrupt` when `json.load`
raises (or the top level is not an object), otherwise the optional
`messages` list and the `summary` string. -/
inductive FileData where
  | corrupt
  | parsed (messages : Option (List Entry)) (summary : String)
  deriving DecidableEq

/-- How `_save_memory` serialises a message (class name decides the
`type` tag, `content` is carried verbatim). -/
def encodeMsg : Msg → Entry
  | .human c => .entry (some "human") (some c)
  | .ai c => .entry (some "ai") (some c)

/-- Embedding of `_save_memory`'s file payload for a memory with
messages `M` and freshly generated summary `summary`. -/
def persistFile (M : List Msg) (summary : String) : FileData :=
  .parsed (some (M.map encodeMsg)) summary

/-- Embedding of `_load_memory`'s restoration loop.  A `KeyError` /
`TypeError` raised by `msg['type']` or `msg['content']` aborts the loop
(the surrounding `except` catches it and only logs), keeping whatever
was already appended; entries with an unrecognized `type` are skipped. -/
def loadEntries : List Entry → List Msg
  | [] => []
  | .notDict :: _ => []
  | .entry none _ :: _ => []
  | .entry (some t) c :: rest =>
    if t = "human" then
      match c with
      | none => []
      | some s => .human s :: loadEntries rest
    else if t = "ai" then
      match c with
      | none => []
      | some s => .ai s :: loadEntries rest
    else
      loadEntries rest

/-- Embedding of `_load_memory`: a missing file (`none`) loads nothing,
an unparseable file loads nothing (exception caught and logged), a file
without a `messages` key loads nothing, and otherwise the entry list is
processed by `loadEntries`.  Total: no exception escapes. -/
def loadFile : Option FileData → List Msg
  | none => []
  | some .corrupt => []
  | some (.parsed none _) => []
  | some (.parsed (some es) _) => loadEntries es

/-- Does processing this entry raise inside the restoration loop? -/
def entryAborts : Entry → Bool
  | .notDict => true
  | .entry none _ => true
  | .entry (some t) c => (t = "human" || t = "ai") && c.isNone

/-- Helper: the round trip of a single encoded message list. -/
theorem loadEntries_encode : ∀ M : List Msg, loadEntries (M.map encodeMsg) = M := by
  intro M
  induction M with
  | nil => rfl
  | cons m rest ih =>
    cases m <;> simp [encodeMsg, loadEntries, ih]

/-- Helper: a non-aborting entry contributes its decoding and the loop
continues. -/
theorem loadEntries_cons_of_not_aborts (e : Entry) (l : List Entry) (h : entryAborts e = false) :
    loadEntries (e :: l) =
      (match e with
       | .entry (some t) (some s) =>
         if t = "human" then [.human s] else if t = "ai" then [.ai s] else []
       | _ => []) ++ loadEntries l := by
  match e with
  | .notDict => simp [entryAborts] at h
  | .entry none c => simp [entryAborts] at h
  | .entry (some t) none =>
    simp [entryAborts] at h
    simp [loadEntries, h.1, h.2]
  | .entry (some t) (some s) =>
    by_cases h1 : t = "human" <;> by_cases h2 : t = "ai" <;>
      simp [loadEntries, h1, h2]

/-- Claim C5: loading the file written by persisting a memory `M`
restores exactly `M` (for empty, singleton and longer histories alike),
and loading with no persisted file yields an empty memory. -/
theorem c5_memory_roundtrip :
    (∀ (M : List Msg) (summary : String), loadFile (some (persistFile M summary)) = M) ∧
    loadFile none = [] := by
  refine ⟨fun M summary => ?_, rfl⟩
  simpa [loadFile, persistFile] using loadEntries_encode M

/-- Counterexample for C6: a present-but-malformed file does NOT yield
an empty memory.  With `messages = [{"type": "human", "content": "hi"},
42]` the second entry raises inside the loop, the exception is caught,
and the already-appended first message remains: the load yields a
partially-loaded, non-empty message set. -/
theorem c6_partial_load_counterexample :
    loadFile (some (.parsed (some [.entry (some "human") (some "hi"), .notDict]) "s")) =
      [.human "hi"] ∧
    [Msg.human "hi"] ≠ ([] : List Msg) := by
  exact ⟨rfl, by decide⟩

/-- Claim C6 (amended): `_load_memory` never raises to the caller; an
absent file, an unparseable file, and a file without a `messages` key
each yield an empty memory; but a malformed entry inside the `messages`
list only stops the restoration loop at that entry, so the well-formed
prefix before it remains loaded (a partially-loaded message set may
remain after a malformed load). -/
theorem c6_load_failsafe_amended :
    loadFile none = [] ∧
    loadFile (some .corrupt) = [] ∧
    (∀ summary, loadFile (some (.parsed none summary)) = []) ∧
    (∀ (good : List Entry) (bad : Entry) (rest : List Entry) (summary : String),
      (∀ e ∈ good, entryAborts e = false) → entryAborts bad = true →
      loadFile (some (.parsed (some (good ++ bad :: rest)) summary)) =
        loadFile (some (.parsed (some good) summary))) := by
  refine ⟨rfl, rfl, fun _ => rfl, fun good bad rest summary hgood hbad => ?_⟩
  simp only [loadFile]
  induction good with
  | nil =>
    match bad, hbad with
    | .notDict, _ => rfl
    | .entry none c, _ => rfl
    | .entry (some t) c, hbad =>
      simp [entryAborts] at hbad
      obtain ⟨ht, hc⟩ := hbad
      cases c with
      | none =>
        rcases ht with ht | ht <;> simp [loadEntries, ht]
      | some s => simp at hc
  | cons e tl ih =>
    have he : entryAborts e = false := hgood e (List.mem_cons_self e tl)
    have htl : ∀ x ∈ tl, entryAborts x = false := fun x hx => hgood x (List.mem_cons_of_mem e hx)
    rw [List.cons_append, loadEntries_cons_of_not_aborts e _ he,
      loadEntries_cons_of_not_aborts e _ he, ih htl]

/-- Witness for C6 (amended): concrete partially-loaded file. -/
theorem c6_load_failsafe_amended_witness :
    loadFile (some (.parsed (some ([Entry.entry (some "human") (some "a")] ++
        Entry.notDict :: [Entry.entry (some "ai") (some "b")])) "s")) =
      loadFile (some (.parsed (some [Entry.entry (some "human") (some "a")]) "s")) :=
  c6_load_failsafe_amended.2.2.2 [Entry.entry (some "human") (some "a")] Entry.notDict
    [Entry.entry (some "ai") (some "b")] "s" (by decide) (by decide)

/-! ## `AIAgent.process` and dispatch-error classification
(agent.py lines 250-317)

`process` wraps the whole completion/dispatch step in `try/except`;
the oracle says whether `agent_executor.invoke` produced a response
(whose optional `"output"` key is read with a default) or raised, and
with what `str(e)`.  Every branch returns a string. -/

/-- Outcome of the completion/dispatch step `agent_executor.invoke`. -/
inductive DispatchOracle where
  | answered (output : Option String)
  | raised (e : String)

/-- The region-unsupported (403) user-facing message. -/
def regionErrorMsg : String :=
  "❌ Ошибка: OpenAI API недоступен в вашем регионе.\n\n" ++
  "Возможные решения:\n" ++
  "1. Используйте VPN или прокси для доступа к OpenAI API\n" ++
  "2. Используйте альтернативный API endpoint (если доступен)\n" ++
  "3. Настройте прокси в переменных окружения:\n" ++
  "   export HTTP_PROXY=http://your-proxy:port\n" ++
  "   export HTTPS_PROXY=http://your-proxy:port\n\n" ++
  "Подробнее см. файл REGION_FIX.md"

/-- The invalid-API-key (401) user-facing message. -/
def authErrorMsg : String :=
  "❌ Ошибка: Неверный API ключ OpenAI.\n" ++
  "Проверьте, что в файле .env указан правильный OPENAI_API_KEY"

/-- The rate-limit (429) user-facing message. -/
def rateLimitErrorMsg : String :=
  "❌ Ошибка: Превышен лимит запросов к OpenAI API.\n" ++
  "Подождите некоторое время и попробуйте снова."

/-- The prefix of the generic dispatch-error message. -/
def genericErrMsgHead : String :=
  "❌ Ошибка при обработке запроса: "

/-- Signal test for the region class (`"403" in error_str or
`"unsupported_country_region_territory" in error_str.lower()`). -/
def class403 (e : String) : Bool :=
  strContains e "403" || strContains (pyLower e) "unsupported_country_region_territory"

/-- Signal test for the auth class (`"401"` / `"invalid_api_key"`). -/
def class401 (e : String) : Bool :=
  strContains e "401" || strContains (pyLower e) "invalid_api_key"

/-- Signal test for the rate-limit class (`"429"` / `"rate_limit"`). -/
def class429 (e : String) : Bool :=
  strContains e "429" || strContains (pyLower e) "rate_limit"

/-- Embedding of the `except` branch of `process`: the if/elif chain
classifying `str(e)`. -/
def classifyDispatchError (e : String) : String :=
  if class403 e then regionErrorMsg
  else if class401 e then authErrorMsg
  else if class429 e then rateLimitErrorMsg
  else genericErrMsgHead ++ e

/-- Embedding of `AIAgent.process`: on success the `"output"` value (or
a fixed apology) is returned after a best-effort memory save (whose own
errors are swallowed by `_save_memory`); on any raised exception the
classified error message is returned.  Total: no exception crosses this
boundary. -/
def process (userInput : String) (o : DispatchOracle) : String :=
  match o with
  | .answered output => output.getD "Извините, не удалось обработать запрос."
  | .raised e => classifyDispatchError e

/-- Helper: appending to a fixed head cannot produce a string whose
chars disagree with the head on its own length. -/
theorem append_ne_of_take_ne (g e b : String)
    (h : b.toList.take g.toList.length ≠ g.toList) : g ++ e ≠ b := by
  intro hc
  apply h
  rw [← hc]
  show ((g ++ e).data.take g.data.length) = g.data
  rw [String.data_append]
  exact List.take_left g.data e.data

/-- Claim C1: for every failure raised out of the completion/dispatch
step, `process` returns a string (the embedding is total), and the
if/elif chain classifies the signal: the 403/region class gets the
region message suggesting proxy/VPN remediation, the 401/auth class
(when not also in the region class) gets the credential message, the
429/rate-limit class gets the wait message, and any other signal gets
the generic message carrying the error text; the four message bodies
are pairwise distinct. -/
theorem c1_process_dispatch_classification :
    ∀ (inp e : String),
      (process inp (.raised e) = regionErrorMsg ∨
       process inp (.raised e) = authErrorMsg ∨
       process inp (.raised e) = rateLimitErrorMsg ∨
       process inp (.raised e) = genericErrMsgHead ++ e) ∧
      (class403 e = true → process inp (.raised e) = regionErrorMsg) ∧
      (class403 e = false → class401 e = true → process inp (.raised e) = authErrorMsg) ∧
      (class403 e = false → class401 e = false → class429 e = true →
        process inp (.raised e) = rateLimitErrorMsg) ∧
      (class403 e = false → class401 e = false → class429 e = false →
        process inp (.raised e) = genericErrMsgHead ++ e) ∧
      List.Pairwise (· ≠ ·)
        [regionErrorMsg, authErrorMsg, rateLimitErrorMsg, genericErrMsgHead ++ e] := by
  intro inp e
  have hgr : genericErrMsgHead ++ e ≠ regionErrorMsg :=
    append_ne_of_take_ne _ e _ (by decide)
  have hga : genericErrMsgHead ++ e ≠ authErrorMsg :=
    append_ne_of_take_ne _ e _ (by decide)
  have hgl : genericErrMsgHead ++ e ≠ rateLimitErrorMsg :=
    append_ne_of_take_ne _ e _ (by decide)
  refine ⟨?_, ?_, ?_, ?_, ?_, ?_⟩
  · by_cases h1 : class403 e <;> by_cases h2 : class401 e <;> by_cases h3 : class429 e <;>
      simp [process, classifyDispatchError, h1, h2, h3]
  · intro h1; simp [process, classifyDispatchError, h1]
  · intro h1 h2; simp [process, classifyDispatchError, h1, h2]
  · intro h1 h2 h3; simp [process, classifyDispatchError, h1, h2, h3]
  · intro h1 h2 h3; simp [process, classifyDispatchError, h1, h2, h3]
  · refine List.Pairwise.cons ?_ (List.Pairwise.cons ?_ (List.Pairwise.cons ?_ (List.pairwise_singleton _ _)))
    · intro b hb
      simp only [List.mem_cons, List.mem_singleton, List.not_mem_nil, or_false] at hb
      rcases hb with rfl | rfl | rfl
      · decide
      · decide
      · exact hgr.symm
    · intro b hb
      simp only [List.mem_cons, List.mem_singleton, List.not_mem_nil, or_false] at hb
      rcases hb with rfl | rfl
      · decide
      · exact hga.symm
    · intro b hb
      simp only [List.mem_cons, List.mem_singleton, List.not_mem_nil, or_false] at hb
      rcases hb with rfl
      exact hgl.symm

/-- Witness for C1: the spec's four simulated signals `"403"`, `"401"`,
`"429"` and an unrecognized `"boom"` land on the four distinct bodies. -/
theorem c1_process_dispatch_classification_witness :
    process "q" (.raised "403") = regionErrorMsg ∧
    process "q" (.raised "401") = authErrorMsg ∧
    process "q" (.raised "429") = rateLimitErrorMsg ∧
    process "q" (.raised "boom") = genericErrMsgHead ++ "boom" :=
  ⟨(c1_process_dispatch_classification "q" "403").2.1 (by decide),
   (c1_process_dispatch_classification "q" "401").2.2.1 (by decide) (by decide),
   (c1_process_dispatch_classification "q" "429").2.2.2.1 (by decide) (by decide) (by decide),
   (c1_process_dispatch_classification "q" "boom").2.2.2.2.1 (by decide) (by decide) (by decide)⟩

/-! ## The tool functions (tools.py)

Each registered tool receives one positional argument (so
`_extract_tool_args` reduces to the identity on it) and consults the
outside world through an oracle.  Exceptions raised by external calls
are the `Except.error` side of the relevant oracle; the tool's own
`try/except` converts them into strings.  The registry functions return
`Except PyExn String`: `Except.error` would mean an exception escaping
the tool function itself. -/

/-- An outbound HTTP request as issued by `requests.get/post/put/delete`:
its URL and the `timeout=` argument passed (Python's `requests` waits
forever when `timeout` is omitted, modelled as `none`). -/
structure Request where
  url : String
  timeout : Option Nat
  deriving DecidableEq

/-- One DuckDuckGo search result (`.get` keys may be missing). -/
structure SearchRes where
  title : Option String
  href : Option String
  body : Option String

/-- An HTTP response: status code, body text, and the text of the
`HTTPError` that `raise_for_status` would raise for an error status. -/
structure HttpResp where
  status : Nat
  text : String
  errText : String

/-- The `current_weather` payload of the Open-Meteo response
(numeric fields are carried in their rendered form). -/
structure WeatherResp where
  hasCurrent : Bool
  temperature : Option String
  windspeed : Option String
  weathercode : Option Int

/-- The CoinGecko response for one coin/currency query: `none` when the
coin key is absent, `some none` when the currency key is absent, and
`some (some p)` with the price already rendered as `f"{price:,.2f}"`. -/
structure CryptoResp where
  coinPrice : Option (Option String)

/-- A geocoded location, coordinates carried in rendered form. -/
structure GeoLoc where
  lat : String
  lon : String
  deriving DecidableEq

/-- One `geolocator.geocode` attempt: raised `str(e)`, or the optional
location. -/
abbrev GeoAttempt : Type := Except String (Option GeoLoc)

/-- Outcome of the exchange-rate request: a raised
`requests.exceptions.RequestException`, some other raised exception, or
the `rates` table (values rendered as `f"{rate:.4f}"`). -/
inductive CurrencyOracle where
  | reqError (e : String)
  | otherError (e : String)
  | ok (rates : List (String × String))

/-! ### `web_search` (tools.py lines 73-117) -/

/-- Embedding of `web_search`: the query is normalized and passed to the
search engine (the oracle); a raised exception is caught and rendered,
no results give a fixed string, and results are formatted and joined. -/
def webSearchRun (input : RawInput) (o : String → Except String (List SearchRes)) : String :=
  match o (normalizeInput input) with
  | .error e => "Ошибка при поиске: " ++ e
  | .ok results =>
    if results.isEmpty then "Результаты поиска не найдены."
    else
      joinSep "\n---\n" (results.map (fun r =>
        "Заголовок: " ++ r.title.getD "N/A" ++ "\nURL: " ++ r.href.getD "N/A" ++
        "\nОписание: " ++ r.body.getD "N/A" ++ "\n"))

/-! ### `http_request` (tools.py lines 120-196) -/

/-- Embedding of `http_request` after its own normalization (lists are
`'|'`-joined).  `jsonOk` is the `json.loads` success predicate for the
headers/data fields.  Returns the result string and the list of
outbound requests issued; NOTE: every `requests.*` call here passes no
`timeout` argument. -/
def httpRequestCore (rs : String) (jsonOk : String → Bool) (o : Except String HttpResp) :
    String × List Request :=
  let parts := (pySplitChar '|' rs.toList).map (fun l => String.mk l)
  let method := pyUpper (pyTrim (parts.headD ""))
  let url := if parts.length > 1 then pyTrim (parts.getD 1 "") else ""
  let headersStr := if parts.length > 2 then pyTrim (parts.getD 2 "") else ""
  let dataStr := if parts.length > 3 then pyTrim (parts.getD 3 "") else ""
  if url = "" then
    ("Ошибка: URL обязателен. Формат: \x27method|url|headers_json|data_json\x27", [])
  else if headersStr ≠ "" && !(jsonOk headersStr) then
    ("Ошибка: Неверный формат JSON для headers: " ++ headersStr, [])
  else if dataStr ≠ "" && !(jsonOk dataStr) then
    ("Ошибка: Неверный формат JSON для data: " ++ dataStr, [])
  else if method = "GET" || method = "POST" || method = "PUT" || method = "DELETE" then
    match o with
    | .error e => ("Ошибка HTTP запроса: " ++ e, [⟨url, none⟩])
    | .ok resp =>
      if resp.status ≥ 400 then
        ("Ошибка HTTP запроса: " ++ resp.errText, [⟨url, none⟩])
      else
        ("Status: " ++ toString resp.status ++ "\nResponse: " ++
          String.mk (resp.text.toList.take 1000), [⟨url, none⟩])
  else
    ("Неподдерживаемый метод: " ++ method, [])

/-- `http_request` including its list normalization (lines 137-141). -/
def httpRequestRun (input : RawInput) (jsonOk : String → Bool) (o : Except String HttpResp) :
    String × List Request :=
  match input with
  | .list vs => httpRequestCore (joinSep "|" (vs.map PyVal.render)) jsonOk o
  | .scalar v => httpRequestCore v.render jsonOk o

/-! ### `read_file` (tools.py lines 199-277) -/

/-- Python `s.lstrip(\x27/\x27)`. -/
def stripSlashes (s : String) : String :=
  String.mk (s.toList.dropWhile (fun c => c = '/'))

/-- Embedding of `read_file` on a POSIX host.  `fs` maps a path to
`none` (absent), `some (.error e)` (present but `open`/`read` raises
`str(e)`) or `some (.ok content)`.  Mirrors the pre-`try` leading-slash
retry (lines 227-240), the in-`try` existence checks (lines 247-264)
and the exception handlers. -/
def readFileRun (input : RawInput) (fs : String → Option (Except String String)) : String :=
  let fp0 := normalizeInput input
  let fp1 :=
    if strStarts fp0 "/" then
      if (fs fp0).isNone && fp0.length > 1 && (fs (stripSlashes fp0)).isSome then
        stripSlashes fp0
      else fp0
    else fp0
  if (fs fp1).isNone then
    if strStarts fp1 "/" then
      if (fs (stripSlashes fp1)).isSome then
        readFileContent (stripSlashes fp1) fs
      else
        "Ошибка чтения файла: Файл \x27" ++ fp0 ++ "\x27 не найден. Проверьте правильность пути."
    else
      "Ошибка чтения файла: Файл \x27" ++ fp1 ++ "\x27 не найден. Проверьте правильность пути."
  else
    readFileContent fp1 fs
where
  /-- The `open`/`read` part inside the `try`: the `none` arm is the
  `except FileNotFoundError` handler (file vanished between check and
  open). -/
  readFileContent (p : String) (fs : String → Option (Except String String)) : String :=
    match fs p with
    | some (.ok c) => c
    | some (.error e) => "Ошибка чтения файла: " ++ e
    | none =>
      "Ошибка чтения файла: Файл \x27" ++ p ++ "\x27 не найден. Убедитесь, что путь указан правильно."

/-! ### `write_file` (tools.py lines 280-375) -/

/-- Embedding of `write_file_impl` on an already-normalized string:
split at the first `'|'` into path and content (both stripped; no `'|'`
means an empty content and a logged warning), refuse an empty path,
then write (the oracle says whether `open`/`write`/`makedirs` raises).
Returns the written `(path, content)` pair, if any, and the result
string. -/
def writeFileCore (s : String) (writeErr : Option String) :
    Option (String × String) × String :=
  let pieces := splitOnce '|' s.toList
  let fp := pyTrim (String.mk pieces.1)
  let content := match pieces.2 with
    | some rest => pyTrim (String.mk rest)
    | none => ""
  if fp = "" then
    (none, "Ошибка: Не указан путь к файлу")
  else
    match writeErr with
    | some e => (none, "Ошибка записи файла: " ++ e)
    | none =>
      (some (fp, content),
        "Файл " ++ fp ++ " успешно записан (" ++ toString content.length ++ " символов).")

/-- `write_file_impl` including its list normalization (lines 315-325):
the first two dict-filtered elements are `'|'`-joined, one element is
kept, and with no real elements the first raw element (or `""` for an
empty list) is used. -/
def writeFileRun (input : RawInput) (writeErr : Option String) :
    Option (String × String) × String :=
  match input with
  | .scalar v => writeFileCore v.render writeErr
  | .list vs =>
    match vs.filter (fun v => !v.isDict) with
    | a :: b :: _ => writeFileCore (a.render ++ "|" ++ b.render) writeErr
    | [a] => writeFileCore a.render writeErr
    | [] =>
      match vs with
      | [] => writeFileCore "" writeErr
      | v :: _ => writeFileCore v.render writeErr

/-! ### `get_weather` (tools.py lines 431-552) -/

/-- The `weather_descriptions` table. -/
def weatherDescriptions : List (Int × String) :=
  [(0, "Ясно"), (1, "Преимущественно ясно"), (2, "Переменная облачность"), (3, "Пасмурно"),
   (45, "Туман"), (48, "Изморозь"), (51, "Легкая морось"), (53, "Умеренная морось"),
   (55, "Сильная морось"), (61, "Легкий дождь"), (63, "Умеренный дождь"), (65, "Сильный дождь"),
   (71, "Легкий снег"), (73, "Умеренный снег"), (75, "Сильный снег"), (80, "Легкий ливень"),
   (81, "Умеренный ливень"), (82, "Сильный ливень"), (85, "Снегопад"), (86, "Сильный снегопад"),
   (95, "Гроза"), (96, "Гроза с градом"), (99, "Сильная гроза с градом")]

/-- Rendering of the weather condition (`weather.get('weathercode',
'N/A')` then table lookup with a `f"Код: ..."` fallback). -/
def weatherCond : Option Int → String
  | some c => (weatherDescriptions.lookup c).getD ("Код: " ++ toString c)
  | none => "Код: N/A"

/-- The geocoding retry loop (lines 457-469): a raising attempt that is
not the last is caught and retried; a raise on the last attempt
re-raises (`Except.error`); a `some` location breaks the loop; after
the loop the location is `none`. -/
def geoLoop : List GeoAttempt → Except String (Option GeoLoc)
  | [] => .ok none
  | [a] => a
  | a :: rest =>
    match a with
    | .error _ => geoLoop rest
    | .ok (some l) => .ok (some l)
    | .ok none => geoLoop rest

/-- The `except` handler of `get_weather` (lines 534-552).  `loc` is
the value of the local variable `location` at the time of the raise —
`none` would mean the variable is unbound, in which case evaluating
`location is None` itself raises (`UnboundLocalError`); since
`location = None` is assigned (line 457) before any raising call, every
call site passes `some _`. -/
def weatherHandler (city e : String) (loc : Option (Option GeoLoc)) : Except PyExn String :=
  if strContains (pyLower e) "timeout" || strContains (pyLower e) "timed out" then
    .ok ("Ошибка: Сервис геокодирования недоступен (таймаут). " ++
      "Попробуйте позже или укажите более точное название города.")
  else if strContains e "GeocoderUnavailable" || strContains (pyLower e) "unavailable" then
    .ok "Ошибка: Сервис геокодирования временно недоступен. Попробуйте позже."
  else if strContains (pyLower e) "not found" then
    .ok ("Город \x27" ++ city ++ "\x27 не найден. Проверьте правильность написания названия города.")
  else
    match loc with
    | none => .error .unboundLocal
    | some l =>
      if l.isNone then
        .ok ("Город \x27" ++ city ++ "\x27 не найден. Проверьте правильность написания названия города.")
      else
        .ok ("Ошибка получения погоды для " ++ city ++ ": " ++ e)

/-- Embedding of `get_weather`: geocode with retries, then fetch
Open-Meteo `requests.get(url, timeout=10)`, with all raises routed
through the handler.  Also returns the outbound `requests` calls. -/
def getWeatherRun (input : RawInput) (geo : List GeoAttempt) (wo : Except String WeatherResp) :
    Except PyExn String × List Request :=
  let city := normalizeInput input
  match geoLoop geo with
  | .error e => (weatherHandler city e (some none), [])
  | .ok none => (.ok ("Город \x27" ++ city ++ "\x27 не найден."), [])
  | .ok (some loc) =>
    let url := "https://api.open-meteo.com/v1/forecast?latitude=" ++ loc.lat ++
      "&longitude=" ++ loc.lon ++ "&current_weather=true"
    match wo with
    | .error e => (weatherHandler city e (some (some loc)), [⟨url, some 10⟩])
    | .ok resp =>
      if !resp.hasCurrent then
        (.ok "Данные о погоде не получены.", [⟨url, some 10⟩])
      else
        (.ok ("Погода в " ++ city ++ ":\nТемпература: " ++ resp.temperature.getD "N/A" ++
          "°C\nВетер: " ++ resp.windspeed.getD "N/A" ++ " км/ч\nУсловия: " ++
          weatherCond resp.weathercode), [⟨url, some 10⟩])

/-! ### `get_crypto_price` (tools.py lines 555-611) -/

/-- `parts[0].strip().lower()` of the comma-split input. -/
def cryptoCoin (cc : String) : String :=
  pyLower (pyTrim (String.mk ((pySplitChar ',' cc.toList).headD [])))

/-- `parts[1].strip().lower()` when present, else `"usd"`. -/
def cryptoCurrency (cc : String) : String :=
  if (pySplitChar ',' cc.toList).length > 1 then
    pyLower (pyTrim (String.mk ((pySplitChar ',' cc.toList).getD 1 [])))
  else "usd"

/-- The CoinGecko URL; NOTE: fetched by `requests.get(url)` with no
`timeout` argument. -/
def cryptoUrl (cc : String) : String :=
  "https://api.coingecko.com/api/v3/simple/price?ids=" ++ cryptoCoin cc ++
    "&vs_currencies=" ++ cryptoCurrency cc

/-- Result formatting of `get_crypto_price` (inside the `try`). -/
def cryptoMessage (coin currency : String) (o : Except String CryptoResp) : String :=
  match o with
  | .error e => "Ошибка получения курса: " ++ e
  | .ok resp =>
    match resp.coinPrice with
    | none => "Криптовалюта \x27" ++ coin ++ "\x27 не найдена. Попробуйте: bitcoin, ethereum, etc."
    | some none => "Валюта \x27" ++ currency ++ "\x27 не поддерживается."
    | some (some p) => "Цена " ++ pyUpper coin ++ ": " ++ p ++ " " ++ pyUpper currency

/-- Embedding of `get_crypto_price`: its own list normalization (which
raises `IndexError` on an empty list, before the `try`), then parse,
fetch and format. -/
def getCryptoRun (input : RawInput) (o : Except String CryptoResp) :
    Except PyExn String × List Request :=
  match cryptoNormalize input with
  | .error exn => (.error exn, [])
  | .ok cc =>
    (.ok (cryptoMessage (cryptoCoin cc) (cryptoCurrency cc) o), [⟨cryptoUrl cc, none⟩])

/-! ### `get_currency_rate` (tools.py lines 614-674) -/

/-- Insertion into a sorted list of strings (code-point order). -/
def insertSorted (s : String) : List String → List String
  | [] => [s]
  | x :: xs => if s ≤ x then s :: x :: xs else x :: insertSorted s xs

/-- Python `sorted` on strings. -/
def sortStrings : List String → List String
  | [] => []
  | x :: xs => insertSorted x (sortStrings xs)

/-- Embedding of `get_currency_rate`: parse the pair, fetch
`requests.get(url, timeout=10)`, look the target up in `rates`, and on
a miss list the first 20 sorted rate keys. -/
def getCurrencyRun (input : RawInput) (o : CurrencyOracle) : String × List Request :=
  let pair := parseCurrencyPair (normalizeInput input)
  let url := "https://api.exchangerate-api.com/v4/latest/" ++ pair.1
  match o with
  | .reqError e => ("Ошибка получения курса валют: " ++ e, [⟨url, some 10⟩])
  | .otherError e => ("Ошибка получения курса: " ++ e, [⟨url, some 10⟩])
  | .ok rates =>
    match rates.lookup pair.2 with
    | some r => ("Курс " ++ pair.1 ++ "/" ++ pair.2 ++ ": " ++ r, [⟨url, some 10⟩])
    | none =>
      ("Валюта \x27" ++ pair.2 ++ "\x27 не найдена.\nДоступные валюты (примеры): " ++
        joinSep ", " ((sortStrings (rates.map Prod.fst)).take 20) ++ "...", [⟨url, some 10⟩])

/-! ### `generate_qr_code` (tools.py lines 677-776) -/

/-- `os.path.dirname` (POSIX): everything before the last `'/'`, with
trailing slashes stripped unless the head is all slashes. -/
def dirname (p : String) : String :=
  let l := p.toList
  let tailLen := (l.reverse.takeWhile (fun c => c ≠ '/')).length
  let head := l.take (l.length - tailLen)
  if head.isEmpty || head.all (fun c => c = '/') then
    String.mk head
  else
    String.mk (head.reverse.dropWhile (fun c => c = '/')).reverse

/-- `os.path.join a b` (POSIX) for a `b` that does not start with `/`. -/
def pyJoin (a b : String) : String :=
  if a = "" || strStarts (String.mk a.toList.reverse) "/" then a ++ b else a ++ "/" ++ b

/-- Embedding of `generate_qr_code` on a POSIX host: availability
check, write-file-style normalization, split into data and path
(default `qr_code.png`), empty-data refusal, directory defaulting via
`QR_CODES_DIR`, then save (the oracle says whether `qrcode`/`img.save`
raises). -/
def generateQrRun (input : RawInput) (avail : Bool) (qrDirEnv : Option String)
    (save : Except String Unit) : String :=
  if !avail then
    "Ошибка: Библиотека qrcode не установлена. Установите её командой: pip install qrcode[pil]"
  else
    let s : String := match input with
      | .scalar v => v.render
      | .list vs =>
        match vs.filter (fun v => !v.isDict) with
        | a :: b :: _ => a.render ++ "|" ++ b.render
        | [a] => a.render
        | [] =>
          match vs with
          | [] => ""
          | v :: _ => v.render
    let pieces := splitOnce '|' s.toList
    let data := pyTrim (String.mk pieces.1)
    let fp0 := match pieces.2 with
      | some rest => pyTrim (String.mk rest)
      | none => "qr_code.png"
    if data = "" then
      "Ошибка: Не указаны данные для генерации QR-кода"
    else
      let fp1 := if dirname fp0 = "" then pyJoin (qrDirEnv.getD "temp_qr_codes") fp0 else fp0
      match save with
      | .error e => "Ошибка генерации QR-кода: " ++ e
      | .ok _ => "✅ QR-код успешно создан для: " ++ String.mk (data.toList.take 100)

/-! ### The tool registry (`get_tools`, tools.py lines 779-876) -/

/-- The whole outside world as seen by the tools. -/
structure Oracle where
  search : String → Except String (List SearchRes)
  jsonOk : String → Bool
  http : Except String HttpResp
  fs : String → Option (Except String String)
  writeErr : Option String
  subproc : SubOracle
  geo : List GeoAttempt
  weather : Except String WeatherResp
  crypto : Except String CryptoResp
  currency : CurrencyOracle
  qrAvailable : Bool
  qrDirEnv : Option String
  qrSave : Except String Unit

/-- Registry-facing `web_search`. -/
def webSearchTool (i : RawInput) (o : Oracle) : Except PyExn String :=
  .ok (webSearchRun i o.search)

/-- Registry-facing `http_request`. -/
def httpRequestTool (i : RawInput) (o : Oracle) : Except PyExn String :=
  .ok (httpRequestRun i o.jsonOk o.http).1

/-- Registry-facing `read_file`. -/
def readFileTool (i : RawInput) (o : Oracle) : Except PyExn String :=
  .ok (readFileRun i o.fs)

/-- Registry-facing `write_file`. -/
def writeFileTool (i : RawInput) (o : Oracle) : Except PyExn String :=
  .ok (writeFileRun i o.writeErr).2

/-- Registry-facing `execute_terminal` (input normalized first). -/
def executeTerminalTool (i : RawInput) (o : Oracle) : Except PyExn String :=
  .ok (executeTerminalRun (normalizeInput i) o.subproc).2

/-- Registry-facing `get_weather`. -/
def getWeatherTool (i : RawInput) (o : Oracle) : Except PyExn String :=
  (getWeatherRun i o.geo o.weather).1

/-- Registry-facing `get_crypto_price`. -/
def getCryptoTool (i : RawInput) (o : Oracle) : Except PyExn String :=
  (getCryptoRun i o.crypto).1

/-- Registry-facing `generate_qr_code`. -/
def generateQrTool (i : RawInput) (o : Oracle) : Except PyExn String :=
  .ok (generateQrRun i o.qrAvailable o.qrDirEnv o.qrSave)

/-- Registry-facing `get_currency_rate`. -/
def getCurrencyTool (i : RawInput) (o : Oracle) : Except PyExn String :=
  .ok (getCurrencyRun i o.currency).1

/-- The registry built by `get_tools`, in source order. -/
def getToolsModel : List (String × (RawInput → Oracle → Except PyExn String)) :=
  [("web_search", webSearchTool),
   ("http_request", httpRequestTool),
   ("read_file", readFileTool),
   ("write_file", writeFileTool),
   ("execute_terminal", executeTerminalTool),
   ("get_weather", getWeatherTool),
   ("get_crypto_price", getCryptoTool),
   ("generate_qr_code", generateQrTool),
   ("get_currency_rate", getCurrencyTool)]

/-- A concrete benign world, used for closed instantiations. -/
def oracle0 : Oracle :=
  ⟨fun _ => .ok [], fun _ => true, .ok ⟨200, "ok", ""⟩, fun _ => none, none,
   .done 0 "" "", [], .ok ⟨true, none, none, none⟩, .ok ⟨none⟩, .ok [], true, none, .ok ()⟩

/-! ## Claim theorems for C2, C7, C9 -/

/-- Helper: the `get_weather` exception handler returns a string for
every bound value of `location`. -/
theorem weatherHandler_some_ok (city e : String) (l : Option GeoLoc) :
    ∃ s, weatherHandler city e (some l) = .ok s := by
  unfold weatherHandler
  split
  · exact ⟨_, rfl⟩
  · split
    · exact ⟨_, rfl⟩
    · split
      · exact ⟨_, rfl⟩
      · show ∃ s, (if l.isNone then _ else _) = _
        split
        · exact ⟨_, rfl⟩
        · exact ⟨_, rfl⟩

/-- Helper: `get_weather` always produces a string, for every input and
every behaviour of the geocoder and the weather API: at every raise
point the local `location` is already bound (it is assigned `None`
before the retry loop), so the handler never hits the unbound case. -/
theorem getWeatherRun_fst_ok (i : RawInput) (g : List GeoAttempt)
    (w : Except String WeatherResp) : ∃ s, (getWeatherRun i g w).1 = .ok s := by
  rcases hg : geoLoop g with e | lo
  · obtain ⟨s, hs⟩ := weatherHandler_some_ok (normalizeInput i) e none
    simp [getWeatherRun, hg, hs]
  · cases lo with
    | none => simp [getWeatherRun, hg]
    | some l =>
      rcases hw : w with e | resp
      · obtain ⟨s, hs⟩ := weatherHandler_some_ok (normalizeInput i) e (some l)
        simp [getWeatherRun, hg, hs]
      · by_cases hr : resp.hasCurrent <;> simp [getWeatherRun, hg, hr]

/-- Counterexample for C2: the registered `get_crypto_price` tool DOES
raise for one supported raw-input shape.  Its private list
normalization evaluates `value[0]` on an empty list (outside the
`try`), so invoking the tool with `[]` raises `IndexError` instead of
returning a string. -/
theorem c2_crypto_empty_list_raises :
    ("get_crypto_price", getCryptoTool) ∈ getToolsModel ∧
    getCryptoTool (RawInput.list []) oracle0 = Except.error PyExn.indexError := by
  constructor
  · simp [getToolsModel]
  · rfl

/-- Claim C2 (amended): for every registered tool, every raw input
shape (scalar, list, list with metadata dicts, empty) and every
behaviour of the outside world, invoking the tool returns a string and
never raises — EXCEPT `get_crypto_price` applied to an empty list,
which raises `IndexError`; all other failure paths, including failures
inside each tool's own exception handler, produce a string result. -/
theorem c2_tools_no_raise_amended :
    ∀ p ∈ getToolsModel, ∀ (input : RawInput) (o : Oracle),
      (p.1 = "get_crypto_price" → input ≠ RawInput.list []) →
      ∃ s, p.2 input o = Except.ok s := by
  intro p hp input o hcr
  simp only [getToolsModel, List.mem_cons, List.not_mem_nil, or_false] at hp
  rcases hp with rfl | rfl | rfl | rfl | rfl | rfl | rfl | rfl | rfl
  · exact ⟨_, rfl⟩
  · exact ⟨_, rfl⟩
  · exact ⟨_, rfl⟩
  · exact ⟨_, rfl⟩
  · exact ⟨_, rfl⟩
  · exact getWeatherRun_fst_ok input o.geo o.weather
  · have hne : input ≠ RawInput.list [] := hcr rfl
    rcases input with v | vs
    · exact ⟨_, rfl⟩
    · rcases vs with _ | ⟨a, _ | ⟨b, _ | ⟨c, rest⟩⟩⟩
      · exact absurd rfl hne
      · exact ⟨_, rfl⟩
      · exact ⟨_, rfl⟩
      · exact ⟨_, rfl⟩
  · exact ⟨_, rfl⟩
  · exact ⟨_, rfl⟩

/-- Witness for C2 (amended) at a concrete registered tool, input and
world. -/
theorem c2_tools_no_raise_amended_witness :
    ∃ s, webSearchTool (RawInput.scalar (PyVal.str "hi")) oracle0 = Except.ok s :=
  c2_tools_no_raise_amended ("web_search", webSearchTool) (by simp [getToolsModel])
    (RawInput.scalar (PyVal.str "hi")) oracle0 (fun h => absurd h (by decide))

/-- Claim C7 (code behaviour at the failing inputs): `http_request` and
`get_crypto_price` issue their outbound requests with NO timeout
(`requests` then waits forever), while `get_currency_rate` and
`get_weather` issue theirs with `timeout=10`.  This contradicts the
spec's requirement that every network-calling tool bounds every
outbound request. -/
theorem c7_timeout_audit :
    (httpRequestRun (.scalar (.str "GET|http://example.com")) (fun _ => true)
        (.ok ⟨200, "ok", ""⟩)).2 = [⟨"http://example.com", none⟩] ∧
    (getCryptoRun (.scalar (.str "bitcoin")) (.ok ⟨some (some "115,000.00")⟩)).2 =
      [⟨"https://api.coingecko.com/api/v3/simple/price?ids=bitcoin&vs_currencies=usd", none⟩] ∧
    (getCurrencyRun (.scalar (.str "USD/EUR")) (.ok [("EUR", "0.9200")])).2 =
      [⟨"https://api.exchangerate-api.com/v4/latest/USD", some 10⟩] ∧
    (getWeatherRun (.scalar (.str "Paris")) [Except.ok (some ⟨"48.85", "2.35"⟩)]
        (.ok ⟨true, some "10.0", some "5.0", some 0⟩)).2 =
      [⟨"https://api.open-meteo.com/v1/forecast?latitude=48.85&longitude=2.35&current_weather=true",
        some 10⟩] := by
  refine ⟨by decide, by decide, by decide, by decide⟩

/-- Counterexample for C9: the return value for input lacking `'|'` is
NOT a warning-qualified string distinguishable from the normal success
string — it is literally identical to the success string of a normal
empty-content write (`"out.txt|"`); the warning only goes to the log. -/
theorem c9_missing_delimiter_counterexample :
    writeFileRun (.scalar (.str "out.txt")) none = writeFileRun (.scalar (.str "out.txt|")) none ∧
    (writeFileRun (.scalar (.str "out.txt")) none).2 =
      "Файл out.txt успешно записан (0 символов)." := by
  exact ⟨rfl, rfl⟩

/-- Claim C9 (amended): invoking the write-file tool with `"out.txt|Hello"`
writes the file `out.txt` with content exactly `Hello` and returns a
success string naming the file and stating the count 5 (character
count, which equals the byte count here); invoking it with `"out.txt"`
(no `'|'`) writes an empty `out.txt` and returns the same plain
success-string format with count 0 — the warning is only logged, so the
returned string is not distinguishable from a normal empty-write
success string. -/
theorem c9_write_file_amended :
    writeFileRun (.scalar (.str "out.txt|Hello")) none =
      (some ("out.txt", "Hello"), "Файл out.txt успешно записан (5 символов).") ∧
    strContains (writeFileRun (.scalar (.str "out.txt|Hello")) none).2 "out.txt" = true ∧
    strContains (writeFileRun (.scalar (.str "out.txt|Hello")) none).2 "5" = true ∧
    writeFileRun (.scalar (.str "out.txt")) none =
      (some ("out.txt", ""), "Файл out.txt успешно записан (0 символов).") := by
  refine ⟨by decide, by decide, by decide, by decide⟩

end Agent
